import Mathlib

/-!
Verification development for the `playspace` crate (pseudo-sandbox with a
process-wide lock, environment snapshot/restore, and a temporary scratch
directory).  The live module tree is `lib.rs` + `mutex.rs`; the definitions
below are a shallow embedding of those sources.  Process state (environment
table, working directory, mutex, temp directories) is threaded explicitly,
and fallible OS calls are driven by explicit oracles supplying their
outcomes.
-/

namespace Pspace

/-- IO errors are modelled by their message payload. -/
abbrev IoError := String

/-- The environment table, as captured by `std::env::vars_os()`: an
association list of (name, value) pairs.  The real table has no duplicate
keys; theorems carry a `Nodup` hypothesis on the key list where needed. -/
abbrev EnvMap := List (String × String)

/-- Lookup of a variable in the environment table (first matching key). -/
def lookupEnv (env : EnvMap) (k : String) : Option String :=
  (env.find? (fun p => p.1 == k)).map Prod.snd

/-- Effect of `std::env::remove_var`: the variable is no longer present. -/
def eraseEnv (env : EnvMap) (k : String) : EnvMap :=
  env.filter (fun p => p.1 != k)

/-- Effect of `std::env::set_var`: the variable maps to exactly `v`. -/
def setEnv (env : EnvMap) (k v : String) : EnvMap :=
  eraseEnv env k ++ [(k, v)]

/-- Key list of an environment table. -/
def envKeys (env : EnvMap) : List String :=
  env.map Prod.fst

/-- First-some choice on options (used to state lookup against two tables). -/
def firstSome (a b : Option String) : Option String :=
  match a with
  | some v => some v
  | none => b

/-- First pass of `Playspace::restore_environment` (lib.rs:641-646): iterate
over the `vars_os()` snapshot; for each variable, if the saved map has it,
`set_var` it to the saved value and remove it from the saved map, otherwise
`remove_var` it.  Arguments: remaining snapshot entries, the live
environment, the remaining saved map. -/
def restoreLoop1 : List (String × String) → EnvMap → EnvMap → EnvMap × EnvMap
  | [], env, saved => (env, saved)
  | (k, _v) :: rest, env, saved =>
    match lookupEnv saved k with
    | some savedVal => restoreLoop1 rest (setEnv env k savedVal) (eraseEnv saved k)
    | none => restoreLoop1 rest (eraseEnv env k) saved

/-- Second pass of `Playspace::restore_environment` (lib.rs:647-649):
`drain` the remaining saved entries, `set_var`-ing each. -/
def restoreLoop2 : List (String × String) → EnvMap → EnvMap
  | [], env => env
  | (k, v) :: rest, env => restoreLoop2 rest (setEnv env k v)

/-- `Playspace::restore_environment` (lib.rs:640-650): both passes, where the
`vars_os()` snapshot iterated by the first pass is the environment at entry
to the function. -/
def restoreEnvironment (saved env : EnvMap) : EnvMap :=
  restoreLoop2 (restoreLoop1 env env saved).2 (restoreLoop1 env env saved).1

/-- `Playspace::set_envs` (lib.rs:452-464): apply a batch of
(name, `Option` value) pairs; `some` sets, `none` unsets. -/
def setEnvs (env : EnvMap) (vars : List (String × Option String)) : EnvMap :=
  vars.foldl
    (fun e kv =>
      match kv.2 with
      | some v => setEnv e kv.1 v
      | none => eraseEnv e kv.1)
    env

/-- Filesystem paths: an absolute flag plus the list of components, as in
`std::path::Path`. -/
structure Path where
  absolute : Bool
  comps : List String
deriving DecidableEq

/-- `Path::is_relative`. -/
def Path.isRelative (p : Path) : Bool :=
  !p.absolute

/-- `Path::join` with the argument relative (the only use in the source is
`self.directory().join(path)` on a relative `path`); a Rust join with an
absolute right-hand side replaces the left-hand side. -/
def Path.join (p q : Path) : Path :=
  if q.absolute then q else { absolute := p.absolute, comps := p.comps ++ q.comps }

/-- `Path::ancestors`: the path itself, then each parent up to the root
(for absolute paths) or the empty path (for relative ones). -/
def Path.ancestors (p : Path) : List Path :=
  (List.range (p.comps.length + 1)).map
    (fun i => { absolute := p.absolute, comps := p.comps.take (p.comps.length - i) })

/-- `Path::starts_with`: component-wise prefix, with matching absoluteness. -/
def Path.startsWith (p base : Path) : Bool :=
  p.absolute == base.absolute && base.comps.isPrefixOf p.comps

/-- OS resolution of a possibly-relative path against the current working
directory (how `exists`/`canonicalize` see their argument). -/
def resolveIn (cwd p : Path) : Path :=
  if p.absolute then p else Path.join cwd p

/-- Read-side filesystem oracle: which paths exist on disk, and what
`canonicalize` returns for a path (an error models an OS failure). -/
structure FS where
  pathExists : Path → Bool
  canonical : Path → Except IoError Path

/-- Acquisition modes of the one process-wide mutex (mutex.rs):
`blocking_lock` / `try_lock` / `MUTEX.lock().await`. -/
inductive AcqMode
  | blocking
  | nonBlocking
  | cooperative
deriving DecidableEq

/-- Observable process state: environment table, working directory, the
single static `MUTEX` (held flag plus a count of outstanding lock tokens),
the set of live temporary directories, and a log of the acquisition modes
that succeeded (newest first). -/
structure ProcState where
  env : EnvMap
  cwd : Path
  lockHeld : Bool
  tokens : Nat
  tempDirs : List Path
  acqLog : List AcqMode
deriving DecidableEq

/-- One acquisition attempt on the static `MUTEX` (mutex.rs:21-27, 42-50).
All three modes consult the same held flag: `none` means the caller does not
get the lock now (`try_lock` fails; `lock`/`lock().await` keep waiting). -/
def ProcState.acquire (st : ProcState) (m : AcqMode) : Option ProcState :=
  if st.lockHeld then none
  else some { st with lockHeld := true, tokens := st.tokens + 1, acqLog := m :: st.acqLog }

/-- Dropping the `MutexGuard`: the lock becomes free and the token is gone. -/
def releaseLock (st : ProcState) : ProcState :=
  { st with lockHeld := false, tokens := st.tokens - 1 }

/-- The fields of a live `Playspace` (lib.rs:212-218), minus the lock token
which is tracked in `ProcState`. -/
structure Playspace where
  savedEnvironment : EnvMap
  savedCurrentDir : Option Path
  directory : Path
deriving DecidableEq

/-- Outcomes of the fallible OS calls made during `Playspace::from_lock`:
whether `current_dir()` succeeds, the fresh path chosen by `tempdir()`, and
the errors (if any) of `tempdir()` and `set_current_dir`. -/
structure SetupOracle where
  currentDirOk : Bool
  tempPath : Path
  tempdirErr : Option IoError
  chdirErr : Option IoError
deriving DecidableEq

/-- Errors returned by `Playspace::exit` (lib.rs:833-842). -/
inductive ExitError
  | workingDirChangeFailed (source : IoError) (tempDir : Option IoError)
  | tempDirRemoveFailed (source : IoError)
deriving DecidableEq

/-- `SpaceError` (lib.rs:808-819). -/
inductive SpaceError
  | alreadyInSpace
  | exitError (e : ExitError)
  | stdIoErr (e : IoError)
deriving DecidableEq

/-- `WriteError` (lib.rs:822-831). -/
inductive WriteError
  | outsidePlayspace (p : Path)
  | stdIoErr (e : IoError)
deriving DecidableEq

/-- `Playspace::from_lock` (lib.rs:393-410): with the lock already taken,
snapshot the environment and working directory, create the temp directory,
and change into it.  On either I/O failure the guard (and the `TempDir`, if
created) are dropped before the error propagates. -/
def Playspace.fromLock (st : ProcState) (o : SetupOracle) :
    Except IoError Playspace × ProcState :=
  match o.tempdirErr with
  | some e => (.error e, releaseLock st)
  | none =>
    match o.chdirErr with
    | some e =>
      (.error e,
        releaseLock { st with tempDirs := (o.tempPath :: st.tempDirs).erase o.tempPath })
    | none =>
      (.ok
        { savedEnvironment := st.env
          savedCurrentDir := if o.currentDirOk then some st.cwd else none
          directory := o.tempPath },
        { st with tempDirs := o.tempPath :: st.tempDirs, cwd := o.tempPath })

/-- `Playspace::new` (lib.rs:346-348): blocking acquisition, then
`from_lock`; `none` models "still blocked waiting". -/
def Playspace.new (st : ProcState) (o : SetupOracle) :
    Option (Except SpaceError Playspace × ProcState) :=
  (st.acquire AcqMode.blocking).map
    (fun st' =>
      ((Playspace.fromLock st' o).1.mapError SpaceError.stdIoErr,
        (Playspace.fromLock st' o).2))

/-- `Playspace::try_new` (lib.rs:388-391): non-blocking acquisition;
`AlreadyInSpace` if the lock is held, otherwise `from_lock`. -/
def Playspace.tryNew (st : ProcState) (o : SetupOracle) :
    Except SpaceError Playspace × ProcState :=
  match st.acquire AcqMode.nonBlocking with
  | none => (.error .alreadyInSpace, st)
  | some st' =>
    ((Playspace.fromLock st' o).1.mapError SpaceError.stdIoErr,
      (Playspace.fromLock st' o).2)

/-- `Playspace::new_async` (lib.rs:781-783): cooperative acquisition of the
same `MUTEX`, then `from_lock`; `none` models "still suspended". -/
def Playspace.newAsync (st : ProcState) (o : SetupOracle) :
    Option (Except SpaceError Playspace × ProcState) :=
  (st.acquire AcqMode.cooperative).map
    (fun st' =>
      ((Playspace.fromLock st' o).1.mapError SpaceError.stdIoErr,
        (Playspace.fromLock st' o).2))

/-- `Playspace::with_envs` (lib.rs:356-365): `new` followed by `set_envs`. -/
def Playspace.withEnvs (st : ProcState) (o : SetupOracle)
    (vars : List (String × Option String)) :
    Option (Except SpaceError Playspace × ProcState) :=
  (Playspace.new st o).map
    (fun r =>
      match r.1 with
      | .error e => (.error e, r.2)
      | .ok ps => (.ok ps, { r.2 with env := setEnvs r.2.env vars }))

/-- `Playspace::with_envs_async` (lib.rs:789-798): the body calls
`Self::new()` — the blocking acquisition path — followed by `set_envs`. -/
def Playspace.withEnvsAsync (st : ProcState) (o : SetupOracle)
    (vars : List (String × Option String)) :
    Option (Except SpaceError Playspace × ProcState) :=
  (Playspace.new st o).map
    (fun r =>
      match r.1 with
      | .error e => (.error e, r.2)
      | .ok ps => (.ok ps, { r.2 with env := setEnvs r.2.env vars }))

/-- Error message built by `Playspace::restore_directory` when no previous
working directory was captured (lib.rs:633-636). -/
def noPrevDir : IoError := "no previous working directory"

/-- Outcomes of the fallible OS calls made during teardown: the error (if
any) of `set_current_dir(saved)` and of `TempDir::close()`. -/
structure TeardownOracle where
  chdirErr : Option IoError
  removeErr : Option IoError
deriving DecidableEq

/-- `Playspace::restore_directory` (lib.rs:629-638). -/
def Playspace.restoreDirectory (saved : Option Path) (o : TeardownOracle)
    (st : ProcState) : Except IoError Unit × ProcState :=
  match saved with
  | some d =>
    match o.chdirErr with
    | some e => (.error e, st)
    | none => (.ok (), { st with cwd := d })
  | none => (.error noPrevDir, st)

/-- The observable teardown steps, used to state ordering claims. -/
inductive TeardownEvent
  | envRestored
  | dirRestored
  | tempDirRemoved
  | lockReleased
deriving DecidableEq

/-- The full teardown sequence in source order. -/
def fullTeardownTrace : List TeardownEvent :=
  [.envRestored, .dirRestored, .tempDirRemoved, .lockReleased]

/-- `Playspace::exit_internal` (lib.rs:604-627): restore the environment
(infallible), attempt to restore the saved working directory, attempt to
remove the temp directory, then — always last — drop the lock; combine the
two fallible results into the `ExitError` shape of the source.  Also
returns the trace of performed steps. -/
def Playspace.exitInternal (ps : Playspace) (st : ProcState) (o : TeardownOracle) :
    Except ExitError Unit × ProcState × List TeardownEvent :=
  let st0 := { st with env := restoreEnvironment ps.savedEnvironment st.env }
  let wd := Playspace.restoreDirectory ps.savedCurrentDir o st0
  let td : Except IoError Unit × ProcState :=
    match o.removeErr with
    | some e => (.error e, wd.2)
    | none => (.ok (), { wd.2 with tempDirs := wd.2.tempDirs.erase ps.directory })
  let st3 := releaseLock td.2
  let result : Except ExitError Unit :=
    match wd.1 with
    | .ok _ =>
      match td.1 with
      | .ok _ => .ok ()
      | .error te => .error (.tempDirRemoveFailed te)
    | .error we =>
      .error
        (.workingDirChangeFailed we
          (match td.1 with
           | .ok _ => none
           | .error te => some te))
  (result, st3,
    [TeardownEvent.envRestored] ++ [TeardownEvent.dirRestored]
      ++ [TeardownEvent.tempDirRemoved] ++ [TeardownEvent.lockReleased])

/-- End of the lexical scope of a `Playspace` value: if it was passed to
`mem::forget` (as `exit` does, lib.rs:599) nothing runs; otherwise `Drop`
runs `exit_internal` and discards its result (lib.rs:801-805). -/
def scopeEnd (forgotten : Bool) (ps : Playspace) (st : ProcState)
    (o : TeardownOracle) : ProcState × List TeardownEvent :=
  if forgotten then (st, [])
  else ((Playspace.exitInternal ps st o).2.1, (Playspace.exitInternal ps st o).2.2)

/-- `Playspace::exit` (lib.rs:594-602): run `exit_internal`, then
`mem::forget(self)` so that scope exit performs no second teardown. -/
def Playspace.exitSpace (ps : Playspace) (st : ProcState) (o : TeardownOracle) :
    Except ExitError Unit × ProcState × List TeardownEvent :=
  ((Playspace.exitInternal ps st o).1,
    (scopeEnd true ps (Playspace.exitInternal ps st o).2.1 o).1,
    (Playspace.exitInternal ps st o).2.2
      ++ (scopeEnd true ps (Playspace.exitInternal ps st o).2.1 o).2)

/-- Abandoning a `Playspace` without calling `exit`: `Drop` runs at scope
exit (lib.rs:801-805), performing the teardown and swallowing the result. -/
def Playspace.abandonSpace (ps : Playspace) (st : ProcState) (o : TeardownOracle) :
    ProcState × List TeardownEvent :=
  scopeEnd false ps st o

/-- The IO errors carried by an explicit-teardown result, in source order:
the working-directory error first, then the temp-dir error, if present. -/
def exitErrorIoList : Except ExitError Unit → List IoError
  | .ok _ => []
  | .error (.workingDirChangeFailed s t) => s :: t.toList
  | .error (.tempDirRemoveFailed s) => [s]

/-- `Playspace::playspace_path` (lib.rs:546-567): relative paths resolve
against the Playspace root; absolute paths are checked by canonicalizing
their first existing ancestor and requiring the canonical root as prefix. -/
def Playspace.playspacePath (ps : Playspace) (fs : FS) (cwd : Path)
    (path : Path) : Except WriteError Path :=
  if path.isRelative = true then .ok (Path.join ps.directory path)
  else
    match path.ancestors.find? (fun a => fs.pathExists (resolveIn cwd a)) with
    | some a =>
      match fs.canonical (resolveIn cwd a) with
      | .error e => .error (.stdIoErr e)
      | .ok ca =>
        match fs.canonical (resolveIn cwd ps.directory) with
        | .error e => .error (.stdIoErr e)
        | .ok croot =>
          if ca.startsWith croot then .ok path
          else .error (.outsidePlayspace path)
    | none => .error (.outsidePlayspace path)

/-- Filesystem write actions performed by the convenience helpers. -/
inductive FsAction
  | writeAction (p : Path) (contents : String)
  | createAction (p : Path)
  | mkdirAction (p : Path)
deriving DecidableEq

/-- `Playspace::write_file` (lib.rs:486-493): containment check, then
`std::fs::write` (whose own outcome is driven by `ioErr`); the returned
list records the writes actually attempted on the filesystem. -/
def Playspace.writeFile (ps : Playspace) (fs : FS) (cwd : Path) (path : Path)
    (contents : String) (ioErr : Option IoError) :
    Except WriteError Unit × List FsAction :=
  match Playspace.playspacePath ps fs cwd path with
  | .error e => (.error e, [])
  | .ok p =>
    match ioErr with
    | some e => (.error (.stdIoErr e), [.writeAction p contents])
    | none => (.ok (), [.writeAction p contents])

/-- `Playspace::create_file` (lib.rs:516-519). -/
def Playspace.createFile (ps : Playspace) (fs : FS) (cwd : Path) (path : Path)
    (ioErr : Option IoError) : Except WriteError Path × List FsAction :=
  match Playspace.playspacePath ps fs cwd path with
  | .error e => (.error e, [])
  | .ok p =>
    match ioErr with
    | some e => (.error (.stdIoErr e), [.createAction p])
    | none => (.ok p, [.createAction p])

/-- `Playspace::create_dir_all` (lib.rs:541-544). -/
def Playspace.createDirAll (ps : Playspace) (fs : FS) (cwd : Path) (path : Path)
    (ioErr : Option IoError) : Except WriteError Unit × List FsAction :=
  match Playspace.playspacePath ps fs cwd path with
  | .error e => (.error e, [])
  | .ok p =>
    match ioErr with
    | some e => (.error (.stdIoErr e), [.mkdirAction p])
    | none => (.ok (), [.mkdirAction p])

/-- Shared body of the `scoped*` entry points (lib.rs:252-261 etc.): given
the entry outcome, run the caller's work, then `exit` the space, surfacing
any teardown error. -/
def scopedBody {R : Type} (entry : Except SpaceError Playspace × ProcState)
    (o : TeardownOracle) (f : Playspace → ProcState → R × ProcState) :
    Except SpaceError R × ProcState :=
  match entry with
  | (.error e, st) => (.error e, st)
  | (.ok ps, st1) =>
    match (Playspace.exitSpace ps (f ps st1).2 o).1 with
    | .ok _ => (.ok (f ps st1).1, (Playspace.exitSpace ps (f ps st1).2 o).2.1)
    | .error e =>
      (.error (.exitError e), (Playspace.exitSpace ps (f ps st1).2 o).2.1)

/-- `Playspace::scoped` (lib.rs:252-261). -/
def Playspace.scoped {R : Type} (st : ProcState) (so : SetupOracle)
    (o : TeardownOracle) (f : Playspace → ProcState → R × ProcState) :
    Option (Except SpaceError R × ProcState) :=
  (Playspace.new st so).map (fun entry => scopedBody entry o f)

/-- `Playspace::try_scoped` (lib.rs:290-299). -/
def Playspace.tryScoped {R : Type} (st : ProcState) (so : SetupOracle)
    (o : TeardownOracle) (f : Playspace → ProcState → R × ProcState) :
    Except SpaceError R × ProcState :=
  scopedBody (Playspace.tryNew st so) o f

/-- `Playspace::scoped_async` (lib.rs:687-696). -/
def Playspace.scopedAsync {R : Type} (st : ProcState) (so : SetupOracle)
    (o : TeardownOracle) (f : Playspace → ProcState → R × ProcState) :
    Option (Except SpaceError R × ProcState) :=
  (Playspace.newAsync st so).map (fun entry => scopedBody entry o f)

/-- `Playspace::try_scoped_async` (lib.rs:728-737): enters via `try_new`. -/
def Playspace.tryScopedAsync {R : Type} (st : ProcState) (so : SetupOracle)
    (o : TeardownOracle) (f : Playspace → ProcState → R × ProcState) :
    Except SpaceError R × ProcState :=
  scopedBody (Playspace.tryNew st so) o f

/-- `Playspace::scoped_with_envs` (lib.rs:306-318). -/
def Playspace.scopedWithEnvs {R : Type} (st : ProcState) (so : SetupOracle)
    (o : TeardownOracle) (vars : List (String × Option String))
    (f : Playspace → ProcState → R × ProcState) :
    Option (Except SpaceError R × ProcState) :=
  (Playspace.withEnvs st so vars).map (fun entry => scopedBody entry o f)

/-- A process that has not entered any Playspace: lock free, no tokens, no
temp directories. -/
def initState (env : EnvMap) (cwd : Path) : ProcState :=
  { env := env, cwd := cwd, lockHeld := false, tokens := 0, tempDirs := [], acqLog := [] }

/-- Process states reachable through the crate's public operations, plus
arbitrary user mutation of the non-lock state (user code cannot forge the
private `LockType`, so it can never touch the mutex or mint tokens). -/
inductive Reachable : ProcState → Prop
  | init (env : EnvMap) (cwd : Path) : Reachable (initState env cwd)
  | viaNew {s : ProcState} {o : SetupOracle}
      {rs : Except SpaceError Playspace × ProcState} :
      Reachable s → Playspace.new s o = some rs → Reachable rs.2
  | viaNewAsync {s : ProcState} {o : SetupOracle}
      {rs : Except SpaceError Playspace × ProcState} :
      Reachable s → Playspace.newAsync s o = some rs → Reachable rs.2
  | viaTryNew {s : ProcState} (o : SetupOracle) :
      Reachable s → Reachable (Playspace.tryNew s o).2
  | viaWithEnvs {s : ProcState} {o : SetupOracle}
      {vars : List (String × Option String)}
      {rs : Except SpaceError Playspace × ProcState} :
      Reachable s → Playspace.withEnvs s o vars = some rs → Reachable rs.2
  | viaExit {s : ProcState} (ps : Playspace) (o : TeardownOracle) :
      Reachable s → Reachable (Playspace.exitSpace ps s o).2.1
  | viaAbandon {s : ProcState} (ps : Playspace) (o : TeardownOracle) :
      Reachable s → Reachable (Playspace.abandonSpace ps s o).1
  | viaUser {s : ProcState} (env : EnvMap) (cwd : Path) (tempDirs : List Path) :
      Reachable s → Reachable { s with env := env, cwd := cwd, tempDirs := tempDirs }

/-- The mutex invariant: the count of outstanding lock tokens mirrors the
held flag. -/
def TokenInv (s : ProcState) : Prop :=
  s.tokens = if s.lockHeld then 1 else 0

/-- Concrete fixtures used by the witness theorems. -/
def homeP : Path := { absolute := true, comps := ["home"] }

def tmpP : Path := { absolute := true, comps := ["tmp", "ps1"] }

def stW : ProcState := initState [] homeP

def stHeldW : ProcState := { stW with lockHeld := true, tokens := 1 }

def soW : SetupOracle :=
  { currentDirOk := true, tempPath := tmpP, tempdirErr := none, chdirErr := none }

def soFailW : SetupOracle :=
  { currentDirOk := true, tempPath := tmpP, tempdirErr := some "tempdir failed",
    chdirErr := none }

def toW : TeardownOracle := { chdirErr := none, removeErr := none }

def toBothFailW : TeardownOracle :=
  { chdirErr := some "chdir failed", removeErr := some "remove failed" }

def psW : Playspace :=
  { savedEnvironment := [], savedCurrentDir := some homeP, directory := tmpP }

def st1W : ProcState :=
  { env := [], cwd := tmpP, lockHeld := true, tokens := 1, tempDirs := [tmpP],
    acqLog := [AcqMode.blocking] }

def fsW : FS :=
  { pathExists := fun q =>
      q == tmpP || q == { absolute := true, comps := ["tmp"] }
        || q == { absolute := true, comps := [] }
    canonical := fun q => .ok q }

def relPathW : Path := { absolute := false, comps := ["notes.txt"] }

def outPathW : Path := { absolute := true, comps := ["etc", "passwd"] }

def f0 : Playspace → ProcState → Nat × ProcState := fun _ s => (42, s)

/-! Environment-table lemmas. -/

lemma lookupEnv_nil (k : String) : lookupEnv [] k = none := rfl

lemma lookupEnv_cons (k₀ v₀ : String) (l : EnvMap) (k : String) :
    lookupEnv ((k₀, v₀) :: l) k = if k₀ = k then some v₀ else lookupEnv l k := by
  by_cases h : k₀ = k
  · simp [lookupEnv, List.find?_cons_of_pos, h]
  · simp only [lookupEnv]
    rw [List.find?_cons_of_neg]
    · simp [h]
    · simp [h]

lemma eraseEnv_cons (k₀ v₀ : String) (l : EnvMap) (k : String) :
    eraseEnv ((k₀, v₀) :: l) k =
      if k₀ = k then eraseEnv l k else (k₀, v₀) :: eraseEnv l k := by
  by_cases h : k₀ = k <;> simp [eraseEnv, List.filter_cons, h]

lemma lookupEnv_eraseEnv (l : EnvMap) (k k' : String) :
    lookupEnv (eraseEnv l k) k' = if k' = k then none else lookupEnv l k' := by
  induction l with
  | nil => by_cases h : k' = k <;> simp [eraseEnv, lookupEnv, h]
  | cons hd tl ih =>
    obtain ⟨k₀, v₀⟩ := hd
    rw [eraseEnv_cons]
    by_cases h₀ : k₀ = k
    · rw [if_pos h₀, ih, lookupEnv_cons]
      by_cases h' : k' = k
      · simp [h']
      · rw [if_neg h', if_neg h', if_neg (by rw [h₀]; exact fun hc => h' hc.symm)]
    · rw [if_neg h₀, lookupEnv_cons, lookupEnv_cons]
      by_cases h₀' : k₀ = k'
      · rw [if_pos h₀', if_pos h₀', if_neg (by rw [← h₀']; exact h₀)]
      · rw [if_neg h₀', if_neg h₀', ih]

lemma lookupEnv_append (l₁ l₂ : EnvMap) (k : String) :
    lookupEnv (l₁ ++ l₂) k = firstSome (lookupEnv l₁ k) (lookupEnv l₂ k) := by
  induction l₁ with
  | nil => simp [lookupEnv_nil, firstSome]
  | cons hd tl ih =>
    obtain ⟨k₀, v₀⟩ := hd
    rw [List.cons_append, lookupEnv_cons, lookupEnv_cons]
    by_cases h : k₀ = k
    · simp [h, firstSome]
    · simp [h, ih]

lemma lookupEnv_setSame (l : EnvMap) (k v : String) :
    lookupEnv (setEnv l k v) k = some v := by
  rw [setEnv, lookupEnv_append, lookupEnv_eraseEnv, if_pos rfl]
  simp [lookupEnv, firstSome]

lemma lookupEnv_setOther (l : EnvMap) (k v k' : String) (h : k' ≠ k) :
    lookupEnv (setEnv l k v) k' = lookupEnv l k' := by
  rw [setEnv, lookupEnv_append, lookupEnv_eraseEnv, if_neg h]
  have h2 : lookupEnv [(k, v)] k' = none := by
    rw [lookupEnv_cons, if_neg (fun hc => h hc.symm), lookupEnv_nil]
  rw [h2]
  cases lookupEnv l k' <;> rfl

lemma lookupEnv_eq_none_iff (l : EnvMap) (k : String) :
    lookupEnv l k = none ↔ k ∉ envKeys l := by
  induction l with
  | nil => simp [lookupEnv_nil, envKeys]
  | cons hd tl ih =>
    obtain ⟨k₀, v₀⟩ := hd
    rw [lookupEnv_cons]
    by_cases h : k₀ = k
    · simp [h, envKeys]
    · simp only [if_neg h, ih, envKeys, List.map_cons, List.mem_cons]
      constructor
      · intro hn hc
        rcases hc with hc | hc
        · exact h hc.symm
        · exact hn hc
      · intro hn
        exact fun hc => hn (Or.inr hc)

lemma envKeys_eraseEnv_sublist (l : EnvMap) (k : String) :
    List.Sublist (envKeys (eraseEnv l k)) (envKeys l) :=
  (List.filter_sublist l).map Prod.fst

lemma nodup_eraseEnv (l : EnvMap) (k : String) (h : (envKeys l).Nodup) :
    (envKeys (eraseEnv l k)).Nodup :=
  h.sublist (envKeys_eraseEnv_sublist l k)

lemma not_mem_envKeys_eraseEnv (l : EnvMap) (k : String) :
    k ∉ envKeys (eraseEnv l k) := by
  simp only [envKeys, eraseEnv, List.mem_map]
  rintro ⟨⟨a, b⟩, hmem, rfl⟩
  have := (List.mem_filter.1 hmem).2
  simp at this

lemma nodup_setEnv (l : EnvMap) (k v : String) (h : (envKeys l).Nodup) :
    (envKeys (setEnv l k v)).Nodup := by
  rw [setEnv]
  have hkeys : envKeys (eraseEnv l k ++ [(k, v)])
      = envKeys (eraseEnv l k) ++ [k] := by
    simp [envKeys]
  rw [hkeys, List.nodup_append]
  exact ⟨nodup_eraseEnv l k h, List.nodup_singleton k,
    by simpa using fun hc => not_mem_envKeys_eraseEnv l k hc⟩

lemma nodup_setEnvs (vars : List (String × Option String)) :
    ∀ env : EnvMap, (envKeys env).Nodup → (envKeys (setEnvs env vars)).Nodup := by
  induction vars with
  | nil => intro env h; exact h
  | cons kv tl ih =>
    intro env h
    obtain ⟨k, ov⟩ := kv
    have hstep : setEnvs env ((k, ov) :: tl)
        = setEnvs (match ov with
                   | some v => setEnv env k v
                   | none => eraseEnv env k) tl := by
      cases ov <;> rfl
    rw [hstep]
    apply ih
    cases ov with
    | some v => exact nodup_setEnv env k v h
    | none => exact nodup_eraseEnv env k h

lemma restoreLoop1_lookup (rest : EnvMap) :
    ∀ (env saved : EnvMap), (envKeys rest).Nodup → ∀ k : String,
      (k ∈ envKeys rest →
        lookupEnv (restoreLoop1 rest env saved).1 k = lookupEnv saved k ∧
        lookupEnv (restoreLoop1 rest env saved).2 k = none) ∧
      (k ∉ envKeys rest →
        lookupEnv (restoreLoop1 rest env saved).1 k = lookupEnv env k ∧
        lookupEnv (restoreLoop1 rest env saved).2 k = lookupEnv saved k) := by
  induction rest with
  | nil =>
    intro env saved _ k
    refine ⟨fun h => absurd h (by simp [envKeys]), fun _ => ⟨rfl, rfl⟩⟩
  | cons hd tl ih =>
    intro env saved hnd k
    obtain ⟨k₀, v₀⟩ := hd
    have hkeys : envKeys ((k₀, v₀) :: tl) = k₀ :: envKeys tl := rfl
    rw [hkeys] at hnd
    have hk₀ : k₀ ∉ envKeys tl := (List.nodup_cons.1 hnd).1
    have hnd' : (envKeys tl).Nodup := (List.nodup_cons.1 hnd).2
    cases hsv : lookupEnv saved k₀ with
    | some sv =>
      have hstep : restoreLoop1 ((k₀, v₀) :: tl) env saved
          = restoreLoop1 tl (setEnv env k₀ sv) (eraseEnv saved k₀) := by
        simp [restoreLoop1, hsv]
      rw [hkeys, hstep]
      constructor
      · intro hk
        rcases List.mem_cons.1 hk with rfl | hk
        · obtain ⟨h1, h2⟩ := (ih (setEnv env k sv) (eraseEnv saved k) hnd' k).2 hk₀
          rw [h1, h2, lookupEnv_setSame, lookupEnv_eraseEnv, if_pos rfl, hsv]
          exact ⟨rfl, rfl⟩
        · have hne : k ≠ k₀ := fun hc => hk₀ (hc ▸ hk)
          obtain ⟨h1, h2⟩ := (ih (setEnv env k₀ sv) (eraseEnv saved k₀) hnd' k).1 hk
          rw [h1, h2, lookupEnv_eraseEnv, if_neg hne]
          exact ⟨rfl, rfl⟩
      · intro hk
        have hne : k ≠ k₀ := fun hc => hk (hc ▸ List.mem_cons_self k₀ (envKeys tl))
        have hk' : k ∉ envKeys tl := fun hc => hk (List.mem_cons_of_mem _ hc)
        obtain ⟨h1, h2⟩ := (ih (setEnv env k₀ sv) (eraseEnv saved k₀) hnd' k).2 hk'
        rw [h1, h2, lookupEnv_setOther _ _ _ _ hne, lookupEnv_eraseEnv, if_neg hne]
        exact ⟨rfl, rfl⟩
    | none =>
      have hstep : restoreLoop1 ((k₀, v₀) :: tl) env saved
          = restoreLoop1 tl (eraseEnv env k₀) saved := by
        simp [restoreLoop1, hsv]
      rw [hkeys, hstep]
      constructor
      · intro hk
        rcases List.mem_cons.1 hk with rfl | hk
        · obtain ⟨h1, h2⟩ := (ih (eraseEnv env k) saved hnd' k).2 hk₀
          rw [h1, h2, lookupEnv_eraseEnv, if_pos rfl, hsv]
          exact ⟨rfl, rfl⟩
        · obtain ⟨h1, h2⟩ := (ih (eraseEnv env k₀) saved hnd' k).1 hk
          rw [h1, h2]
          exact ⟨rfl, rfl⟩
      · intro hk
        have hne : k ≠ k₀ := fun hc => hk (hc ▸ List.mem_cons_self k₀ (envKeys tl))
        have hk' : k ∉ envKeys tl := fun hc => hk (List.mem_cons_of_mem _ hc)
        obtain ⟨h1, h2⟩ := (ih (eraseEnv env k₀) saved hnd' k).2 hk'
        rw [h1, h2, lookupEnv_eraseEnv, if_neg hne]
        exact ⟨rfl, rfl⟩

lemma restoreLoop1_saved_sublist (rest : EnvMap) :
    ∀ env saved : EnvMap,
      List.Sublist (envKeys (restoreLoop1 rest env saved).2) (envKeys saved) := by
  induction rest with
  | nil => intro env saved; exact List.Sublist.refl _
  | cons hd tl ih =>
    intro env saved
    obtain ⟨k₀, v₀⟩ := hd
    cases hsv : lookupEnv saved k₀ with
    | some sv =>
      have hstep : restoreLoop1 ((k₀, v₀) :: tl) env saved
          = restoreLoop1 tl (setEnv env k₀ sv) (eraseEnv saved k₀) := by
        simp [restoreLoop1, hsv]
      rw [hstep]
      exact (ih _ _).trans (envKeys_eraseEnv_sublist saved k₀)
    | none =>
      have hstep : restoreLoop1 ((k₀, v₀) :: tl) env saved
          = restoreLoop1 tl (eraseEnv env k₀) saved := by
        simp [restoreLoop1, hsv]
      rw [hstep]
      exact ih _ _

lemma restoreLoop2_lookup (l : EnvMap) :
    ∀ env : EnvMap, (envKeys l).Nodup → ∀ k : String,
      lookupEnv (restoreLoop2 l env) k
        = firstSome (lookupEnv l k) (lookupEnv env k) := by
  induction l with
  | nil => intro env _ k; simp [restoreLoop2, lookupEnv_nil, firstSome]
  | cons hd tl ih =>
    intro env hnd k
    obtain ⟨k₀, v₀⟩ := hd
    have hkeys : envKeys ((k₀, v₀) :: tl) = k₀ :: envKeys tl := rfl
    rw [hkeys] at hnd
    have hk₀ : k₀ ∉ envKeys tl := (List.nodup_cons.1 hnd).1
    have hnd' : (envKeys tl).Nodup := (List.nodup_cons.1 hnd).2
    have hstep : restoreLoop2 ((k₀, v₀) :: tl) env
        = restoreLoop2 tl (setEnv env k₀ v₀) := rfl
    rw [hstep, ih _ hnd' k, lookupEnv_cons]
    by_cases hk : k₀ = k
    · subst hk
      rw [if_pos rfl, (lookupEnv_eq_none_iff tl k₀).2 hk₀, lookupEnv_setSame]
      rfl
    · rw [if_neg hk, lookupEnv_setOther _ _ _ _ (fun hc => hk hc.symm)]

lemma restoreEnvironment_lookup (saved env : EnvMap)
    (hs : (envKeys saved).Nodup) (he : (envKeys env).Nodup) (k : String) :
    lookupEnv (restoreEnvironment saved env) k = lookupEnv saved k := by
  rw [restoreEnvironment]
  have hnd2 : (envKeys (restoreLoop1 env env saved).2).Nodup :=
    hs.sublist (restoreLoop1_saved_sublist env env saved)
  rw [restoreLoop2_lookup _ _ hnd2 k]
  by_cases hk : k ∈ envKeys env
  · obtain ⟨h1, h2⟩ := (restoreLoop1_lookup env env saved he k).1 hk
    rw [h1, h2]
    rfl
  · obtain ⟨h1, h2⟩ := (restoreLoop1_lookup env env saved he k).2 hk
    rw [h1, h2, (lookupEnv_eq_none_iff env k).2 hk]
    cases lookupEnv saved k <;> rfl

/-! Mutex and token-count lemmas. -/

lemma acquire_eq_some {st : ProcState} {m : AcqMode} {st' : ProcState}
    (h : st.acquire m = some st') :
    st.lockHeld = false ∧
      st' = { st with lockHeld := true, tokens := st.tokens + 1,
                      acqLog := m :: st.acqLog } := by
  by_cases hl : st.lockHeld
  · simp [ProcState.acquire, hl] at h
  · simp [ProcState.acquire, hl] at h
    exact ⟨by simp [hl], h.symm⟩

lemma acquire_isSome_lockFree {st : ProcState} {m : AcqMode}
    (h : (st.acquire m).isSome) : st.lockHeld = false := by
  cases hacq : st.acquire m with
  | none => rw [hacq] at h; simp at h
  | some st' => exact (acquire_eq_some hacq).1

lemma fromLock_tokenInv {st : ProcState} (o : SetupOracle)
    (h1 : st.lockHeld = true) (h2 : st.tokens = 1) :
    TokenInv (Playspace.fromLock st o).2 := by
  unfold Playspace.fromLock
  cases o.tempdirErr with
  | some e => simp [TokenInv, releaseLock, h2]
  | none =>
    cases o.chdirErr with
    | some e => simp [TokenInv, releaseLock, h2]
    | none => simp [TokenInv, h1, h2]

lemma fromLock_acqLog (st : ProcState) (o : SetupOracle) :
    (Playspace.fromLock st o).2.acqLog = st.acqLog := by
  unfold Playspace.fromLock
  cases o.tempdirErr with
  | some e => simp [releaseLock]
  | none =>
    cases o.chdirErr with
    | some e => simp [releaseLock]
    | none => simp

lemma new_inversion {s : ProcState} {o : SetupOracle}
    {rs : Except SpaceError Playspace × ProcState}
    (heq : Playspace.new s o = some rs) :
    ∃ st', s.acquire AcqMode.blocking = some st' ∧
      rs = ((Playspace.fromLock st' o).1.mapError SpaceError.stdIoErr,
        (Playspace.fromLock st' o).2) := by
  unfold Playspace.new at heq
  cases hacq : s.acquire AcqMode.blocking with
  | none => rw [hacq] at heq; simp at heq
  | some st' =>
    rw [hacq] at heq
    simp at heq
    exact ⟨st', rfl, heq.symm⟩

lemma newAsync_inversion {s : ProcState} {o : SetupOracle}
    {rs : Except SpaceError Playspace × ProcState}
    (heq : Playspace.newAsync s o = some rs) :
    ∃ st', s.acquire AcqMode.cooperative = some st' ∧
      rs = ((Playspace.fromLock st' o).1.mapError SpaceError.stdIoErr,
        (Playspace.fromLock st' o).2) := by
  unfold Playspace.newAsync at heq
  cases hacq : s.acquire AcqMode.cooperative with
  | none => rw [hacq] at heq; simp at heq
  | some st' =>
    rw [hacq] at heq
    simp at heq
    exact ⟨st', rfl, heq.symm⟩

lemma acquire_then_fromLock_tokenInv {s : ProcState} {o : SetupOracle}
    {m : AcqMode} {st' : ProcState} (hInv : TokenInv s)
    (hacq : s.acquire m = some st') :
    TokenInv (Playspace.fromLock st' o).2 := by
  obtain ⟨hfree, rfl⟩ := acquire_eq_some hacq
  have htok : s.tokens = 0 := by rw [TokenInv, hfree] at hInv; exact hInv
  exact fromLock_tokenInv o (by simp) (by simp [htok])

lemma exitInternal_lock_tokens (ps : Playspace) (st : ProcState)
    (o : TeardownOracle) :
    (Playspace.exitInternal ps st o).2.1.lockHeld = false ∧
      (Playspace.exitInternal ps st o).2.1.tokens = st.tokens - 1 := by
  unfold Playspace.exitInternal
  cases ps.savedCurrentDir with
  | none =>
    cases o.removeErr with
    | some e => simp [Playspace.restoreDirectory, releaseLock]
    | none => simp [Playspace.restoreDirectory, releaseLock]
  | some d =>
    cases hcd : o.chdirErr with
    | some e =>
      cases o.removeErr with
      | some e2 => simp [Playspace.restoreDirectory, hcd, releaseLock]
      | none => simp [Playspace.restoreDirectory, hcd, releaseLock]
    | none =>
      cases o.removeErr with
      | some e2 => simp [Playspace.restoreDirectory, hcd, releaseLock]
      | none => simp [Playspace.restoreDirectory, hcd, releaseLock]

lemma exitInternal_tokenInv {st : ProcState} (ps : Playspace)
    (o : TeardownOracle) (hInv : TokenInv st) :
    TokenInv (Playspace.exitInternal ps st o).2.1 := by
  obtain ⟨hl, ht⟩ := exitInternal_lock_tokens ps st o
  rw [TokenInv, hl, ht, hInv]
  cases st.lockHeld <;> rfl

lemma reachable_tokenInv : ∀ s : ProcState, Reachable s → TokenInv s := by
  intro s h
  induction h with
  | init env cwd => rfl
  | viaNew hr heq ih =>
    obtain ⟨st', hacq, rfl⟩ := new_inversion heq
    exact acquire_then_fromLock_tokenInv ih hacq
  | viaNewAsync hr heq ih =>
    obtain ⟨st', hacq, rfl⟩ := newAsync_inversion heq
    exact acquire_then_fromLock_tokenInv ih hacq
  | viaTryNew o hr ih =>
    rename_i s'
    unfold Playspace.tryNew
    cases hacq : s'.acquire AcqMode.nonBlocking with
    | none => exact ih
    | some st' => exact acquire_then_fromLock_tokenInv ih hacq
  | viaWithEnvs hr heq ih =>
    rename_i s' o vars rs
    unfold Playspace.withEnvs at heq
    cases hn : Playspace.new s' o with
    | none => rw [hn] at heq; simp at heq
    | some r =>
      rw [hn] at heq
      simp at heq
      obtain ⟨st', hacq, hr'⟩ := new_inversion hn
      have hinv2 : TokenInv r.2 := by
        rw [hr']
        exact acquire_then_fromLock_tokenInv ih hacq
      cases hfst : r.1 with
      | error e =>
        rw [← heq]
        simpa [hfst] using hinv2
      | ok ps =>
        rw [← heq]
        simpa [hfst, TokenInv] using hinv2
  | viaExit ps o hr ih =>
    exact exitInternal_tokenInv ps o ih
  | viaAbandon ps o hr ih =>
    rename_i s'
    unfold Playspace.abandonSpace scopeEnd
    simpa using exitInternal_tokenInv ps o ih
  | viaUser env cwd tempDirs hr ih =>
    simpa [TokenInv] using ih

/-! Setup-failure lemmas. -/

lemma fromLock_tempdir_fail {st : ProcState} {o : SetupOracle} {e : IoError}
    (h : o.tempdirErr = some e) :
    Playspace.fromLock st o = (.error e, releaseLock st) := by
  unfold Playspace.fromLock
  rw [h]

lemma fromLock_chdir_fail {st : ProcState} {o : SetupOracle} {e : IoError}
    (h1 : o.tempdirErr = none) (h2 : o.chdirErr = some e) :
    Playspace.fromLock st o = (.error e, releaseLock st) := by
  unfold Playspace.fromLock
  rw [h1, h2, List.erase_cons_head]

lemma fromLock_success {st : ProcState} {o : SetupOracle}
    (h1 : o.tempdirErr = none) (h2 : o.chdirErr = none) :
    Playspace.fromLock st o =
      (.ok
        { savedEnvironment := st.env
          savedCurrentDir := if o.currentDirOk then some st.cwd else none
          directory := o.tempPath },
        { st with tempDirs := o.tempPath :: st.tempDirs, cwd := o.tempPath }) := by
  unfold Playspace.fromLock
  rw [h1, h2]

/-! Path and containment lemmas. -/

lemma resolveIn_absolute (cwd : Path) {p : Path} (h : p.absolute = true) :
    resolveIn cwd p = p := by
  unfold resolveIn
  rw [h]
  rfl

lemma ancestors_absolute {p a : Path} (h : a ∈ p.ancestors) :
    a.absolute = p.absolute := by
  simp only [Path.ancestors, List.mem_map, List.mem_range] at h
  obtain ⟨i, _, rfl⟩ := h
  rfl

lemma find?_congr_on {α : Type} (l : List α) (p q : α → Bool)
    (h : ∀ a ∈ l, p a = q a) : l.find? p = l.find? q := by
  induction l with
  | nil => rfl
  | cons a t ih =>
    have ha := h a (List.mem_cons_self a t)
    by_cases hp : p a = true
    · rw [List.find?_cons_of_pos _ hp, List.find?_cons_of_pos _ (ha ▸ hp)]
    · have hq : ¬q a = true := by rw [← ha]; exact hp
      rw [List.find?_cons_of_neg _ hp, List.find?_cons_of_neg _ hq,
        ih (fun b hb => h b (List.mem_cons_of_mem _ hb))]

lemma playspacePath_abs_eq (ps : Playspace) (fs : FS) (cwd : Path) {p : Path}
    (hp : p.absolute = true) (hr : ps.directory.absolute = true) :
    Playspace.playspacePath ps fs cwd p =
      (match p.ancestors.find? (fun a => fs.pathExists a) with
       | some a =>
         match fs.canonical a with
         | .error e => .error (.stdIoErr e)
         | .ok ca =>
           match fs.canonical ps.directory with
           | .error e => .error (.stdIoErr e)
           | .ok croot =>
             if ca.startsWith croot then .ok p
             else .error (.outsidePlayspace p)
       | none => .error (.outsidePlayspace p)) := by
  unfold Playspace.playspacePath
  have hrel : p.isRelative = false := by simp [Path.isRelative, hp]
  rw [if_neg (show ¬p.isRelative = true by simp [hrel])]
  have hfind : p.ancestors.find? (fun a => fs.pathExists (resolveIn cwd a))
      = p.ancestors.find? (fun a => fs.pathExists a) :=
    find?_congr_on _ _ _ (fun a ha => by
      rw [resolveIn_absolute cwd (by rw [ancestors_absolute ha, hp])])
  rw [hfind]
  cases hfa : p.ancestors.find? (fun a => fs.pathExists a) with
  | none => rfl
  | some a =>
    have haabs : a.absolute = true := by
      rw [ancestors_absolute (List.mem_of_find?_eq_some hfa), hp]
    simp only [resolveIn_absolute cwd haabs, resolveIn_absolute cwd hr]

/-! Scoped-wrapper lemmas. -/

lemma scopedBody_entry_err {R : Type} (e : SpaceError) (st : ProcState)
    (o : TeardownOracle) (f : Playspace → ProcState → R × ProcState) :
    scopedBody (.error e, st) o f = (.error e, st) := rfl

lemma scopedBody_exit_ok {R : Type} (ps : Playspace) (st1 : ProcState)
    (o : TeardownOracle) (f : Playspace → ProcState → R × ProcState)
    (hex : (Playspace.exitSpace ps (f ps st1).2 o).1 = .ok ()) :
    scopedBody (.ok ps, st1) o f
      = (.ok (f ps st1).1, (Playspace.exitSpace ps (f ps st1).2 o).2.1) := by
  simp [scopedBody, hex]

lemma scopedBody_exit_err {R : Type} (ps : Playspace) (st1 : ProcState)
    (o : TeardownOracle) (f : Playspace → ProcState → R × ProcState)
    (e : ExitError)
    (hex : (Playspace.exitSpace ps (f ps st1).2 o).1 = .error e) :
    scopedBody (.ok ps, st1) o f
      = (.error (.exitError e), (Playspace.exitSpace ps (f ps st1).2 o).2.1) := by
  simp [scopedBody, hex]

/-! Claim theorems. -/

/-- C1: At most one Exclusion Token is outstanding process-wide in any
reachable state, whichever acquisition mode produced it: all three modes
(blocking `new`, non-blocking `try_new`, cooperative `new_async`) consult
the one static mutex, whose successful acquisition requires it free and
leaves it held.  While it is held, `try_new` fails immediately with
`AlreadyInSpace` and returns the process state literally unchanged: no
temp directory, no working-directory change, no environment change. -/
theorem c1_single_token :
    (∀ s : ProcState, Reachable s → s.tokens ≤ 1) ∧
    (∀ (s : ProcState) (m : AcqMode), (s.acquire m).isSome → s.lockHeld = false) ∧
    (∀ (s : ProcState) (m : AcqMode) (s' : ProcState),
      s.acquire m = some s' → s'.lockHeld = true) ∧
    (∀ (s : ProcState) (o : SetupOracle), s.lockHeld = true →
      Playspace.tryNew s o = (.error .alreadyInSpace, s)) := by
  refine ⟨?_, ?_, ?_, ?_⟩
  · intro s hs
    rw [reachable_tokenInv s hs]
    cases s.lockHeld <;> simp
  · intro s m h
    exact acquire_isSome_lockFree h
  · intro s m s' h
    rw [(acquire_eq_some h).2]
  · intro s o h
    unfold Playspace.tryNew
    simp [ProcState.acquire, h]

/-- Witness for C1 at a concrete initial state and a concrete held state. -/
theorem c1_single_token_witness :
    stW.tokens ≤ 1 ∧
      Playspace.tryNew stHeldW soW = (.error .alreadyInSpace, stHeldW) :=
  ⟨c1_single_token.1 stW (Reachable.init [] homeP),
    c1_single_token.2.2.2 stHeldW soW rfl⟩

/-- C2: For every snapshot table and every table the session's set/unset
operations (arbitrary mutation, or any `set_envs` batch applied to the
snapshot) leave behind, teardown's `restore_environment` yields a table
whose lookup agrees with the snapshot on every key — same key set, same
values — so the two-pass reconciliation lands exactly on the snapshot. -/
theorem c2_restore_environment_exact :
    (∀ saved current : EnvMap,
      (envKeys saved).Nodup → (envKeys current).Nodup →
      ∀ k, lookupEnv (restoreEnvironment saved current) k = lookupEnv saved k) ∧
    (∀ (start : EnvMap) (ops : List (String × Option String)),
      (envKeys start).Nodup →
      ∀ k, lookupEnv (restoreEnvironment start (setEnvs start ops)) k
        = lookupEnv start k) := by
  constructor
  · exact fun saved current hs hc k => restoreEnvironment_lookup saved current hs hc k
  · intro start ops hnd k
    exact restoreEnvironment_lookup start _ hnd (nodup_setEnvs ops start hnd) k

/-- Witness for C2: `FOO=old` is unset and `BAR=new` is set inside the
session; restoration returns the table to `FOO=old`, `BAR` absent. -/
theorem c2_restore_environment_exact_witness :
    lookupEnv (restoreEnvironment [("FOO", "old")]
        (setEnvs [("FOO", "old")] [("FOO", none), ("BAR", some "new")])) "FOO"
      = lookupEnv [("FOO", "old")] "FOO" ∧
    lookupEnv (restoreEnvironment [("FOO", "old")]
        (setEnvs [("FOO", "old")] [("FOO", none), ("BAR", some "new")])) "BAR"
      = lookupEnv [("FOO", "old")] "BAR" :=
  ⟨c2_restore_environment_exact.2 [("FOO", "old")]
      [("FOO", none), ("BAR", some "new")] (by decide) "FOO",
    c2_restore_environment_exact.2 [("FOO", "old")]
      [("FOO", none), ("BAR", some "new")] (by decide) "BAR"⟩

/-- C3: On every teardown of an active session — explicit `exit` or
implicit drop, for every outcome of the fallible steps — the lock release
is strictly last: environment restoration, the directory-restore attempt
and the temp-dir-removal attempt all appear before `lockReleased` in the
trace, the final state has the lock free, and the environment visible at
release time is already the fully restored one. -/
theorem c3_lock_release_last :
    ∀ (ps : Playspace) (st : ProcState) (o : TeardownOracle),
      (Playspace.exitInternal ps st o).2.2 = fullTeardownTrace ∧
      (Playspace.exitInternal ps st o).2.2.getLast?
        = some TeardownEvent.lockReleased ∧
      (Playspace.exitInternal ps st o).2.2.dropLast
        = [TeardownEvent.envRestored, TeardownEvent.dirRestored,
           TeardownEvent.tempDirRemoved] ∧
      (Playspace.exitInternal ps st o).2.1.lockHeld = false ∧
      (Playspace.exitInternal ps st o).2.1.env
        = restoreEnvironment ps.savedEnvironment st.env ∧
      (Playspace.abandonSpace ps st o).2 = (Playspace.exitInternal ps st o).2.2 ∧
      (Playspace.exitSpace ps st o).2.2 = (Playspace.exitInternal ps st o).2.2 := by
  intro ps st o
  refine ⟨rfl, rfl, rfl, (exitInternal_lock_tokens ps st o).1, ?_, rfl, rfl⟩
  unfold Playspace.exitInternal
  cases hsd : ps.savedCurrentDir with
  | none =>
    cases hrm : o.removeErr with
    | some e2 => simp [Playspace.restoreDirectory, releaseLock]
    | none => simp [Playspace.restoreDirectory, releaseLock]
  | some d =>
    cases hcd : o.chdirErr with
    | some e1 =>
      cases hrm : o.removeErr with
      | some e2 => simp [Playspace.restoreDirectory, hcd, releaseLock]
      | none => simp [Playspace.restoreDirectory, hcd, releaseLock]
    | none =>
      cases hrm : o.removeErr with
      | some e2 => simp [Playspace.restoreDirectory, hcd, releaseLock]
      | none => simp [Playspace.restoreDirectory, hcd, releaseLock]

/-- C4: If, after the lock has been acquired, temp-directory creation or
the working-directory change fails, no session value is produced, the very
I/O error propagates, the lock is released before control returns, and the
environment table, working directory and live temp directories are exactly
as before the attempt. -/
theorem c4_setup_failure_clean :
    ∀ (st : ProcState) (o : SetupOracle) (e : IoError),
      (o.tempdirErr = some e →
        Playspace.fromLock st o = (.error e, releaseLock st) ∧
        (Playspace.fromLock st o).2.lockHeld = false ∧
        (Playspace.fromLock st o).2.env = st.env ∧
        (Playspace.fromLock st o).2.cwd = st.cwd ∧
        (Playspace.fromLock st o).2.tempDirs = st.tempDirs) ∧
      (o.tempdirErr = none → o.chdirErr = some e →
        Playspace.fromLock st o = (.error e, releaseLock st) ∧
        (Playspace.fromLock st o).2.lockHeld = false ∧
        (Playspace.fromLock st o).2.env = st.env ∧
        (Playspace.fromLock st o).2.cwd = st.cwd ∧
        (Playspace.fromLock st o).2.tempDirs = st.tempDirs) := by
  intro st o e
  constructor
  · intro h
    rw [fromLock_tempdir_fail h]
    exact ⟨rfl, rfl, rfl, rfl, rfl⟩
  · intro h1 h2
    rw [fromLock_chdir_fail h1 h2]
    exact ⟨rfl, rfl, rfl, rfl, rfl⟩

/-- Witness for C4 at a concrete failing `tempdir()`. -/
theorem c4_setup_failure_clean_witness :
    Playspace.fromLock stHeldW soFailW
      = (.error "tempdir failed", releaseLock stHeldW) :=
  ((c4_setup_failure_clean stHeldW soFailW "tempdir failed").1 rfl).1

/-- C5: Explicit teardown performs all steps unconditionally — the trace
always contains every step — releases the lock even when every fallible
step failed, and the errors carried by the returned value are exactly the
errors that occurred: the working-directory one (or the no-previous-
directory error) and the removal one, both present when both failed. -/
theorem c5_teardown_aggregates_errors :
    ∀ (ps : Playspace) (st : ProcState) (o : TeardownOracle),
      (Playspace.exitInternal ps st o).2.2 = fullTeardownTrace ∧
      (Playspace.exitInternal ps st o).2.1.lockHeld = false ∧
      exitErrorIoList (Playspace.exitInternal ps st o).1
        = (match ps.savedCurrentDir with
           | none => [noPrevDir]
           | some _ => o.chdirErr.toList) ++ o.removeErr.toList := by
  intro ps st o
  refine ⟨rfl, (exitInternal_lock_tokens ps st o).1, ?_⟩
  unfold Playspace.exitInternal
  cases hsd : ps.savedCurrentDir with
  | none =>
    cases hrm : o.removeErr with
    | some e2 => simp [Playspace.restoreDirectory, exitErrorIoList]
    | none => simp [Playspace.restoreDirectory, exitErrorIoList]
  | some d =>
    cases hcd : o.chdirErr with
    | some e1 =>
      cases hrm : o.removeErr with
      | some e2 => simp [Playspace.restoreDirectory, hcd, exitErrorIoList]
      | none => simp [Playspace.restoreDirectory, hcd, exitErrorIoList]
    | none =>
      cases hrm : o.removeErr with
      | some e2 => simp [Playspace.restoreDirectory, hcd, exitErrorIoList]
      | none => simp [Playspace.restoreDirectory, hcd, exitErrorIoList]

/-- C9: The concrete error shape of explicit teardown: when both fallible
steps fail the working-directory error is primary, with the removal error
attached in the `tempDir` field; removal-only failure yields
`tempDirRemoveFailed`; restore-only failure yields `tempDir = none`. -/
theorem c9_exit_error_shape :
    ∀ (ps : Playspace) (st : ProcState) (o : TeardownOracle) (d : Path)
      (e1 e2 : IoError), ps.savedCurrentDir = some d →
      ((o.chdirErr = some e1 → o.removeErr = some e2 →
        (Playspace.exitInternal ps st o).1
          = .error (.workingDirChangeFailed e1 (some e2))) ∧
       (o.chdirErr = none → o.removeErr = some e2 →
        (Playspace.exitInternal ps st o).1
          = .error (.tempDirRemoveFailed e2)) ∧
       (o.chdirErr = some e1 → o.removeErr = none →
        (Playspace.exitInternal ps st o).1
          = .error (.workingDirChangeFailed e1 none))) := by
  intro ps st o d e1 e2 hsd
  refine ⟨?_, ?_, ?_⟩ <;> intro h1 h2 <;>
    simp [Playspace.exitInternal, Playspace.restoreDirectory, hsd, h1, h2]

/-- Witness for C9: both teardown steps fail on a concrete session. -/
theorem c9_exit_error_shape_witness :
    (Playspace.exitInternal psW stW toBothFailW).1
      = .error (.workingDirChangeFailed "chdir failed" (some "remove failed")) :=
  (c9_exit_error_shape psW stW toBothFailW homeP "chdir failed" "remove failed"
    rfl).1 rfl rfl

/-- C6: A relative path always resolves to the scratch root joined with it;
for any root and any path the result is independent of the process's
current working directory at call time; an absolute path with no existing
ancestor is rejected with `OutsidePlayspace` carrying the original path; an
absolute path whose first existing ancestor canonicalizes is accepted
exactly when that canonical ancestor starts with the canonical root,
otherwise rejected with `OutsidePlayspace` carrying the original path; and
a rejected path causes no filesystem action in any write helper. -/
theorem c6_path_containment :
    (∀ (ps : Playspace) (fs : FS) (cwd p : Path), p.absolute = false →
      Playspace.playspacePath ps fs cwd p = .ok (Path.join ps.directory p)) ∧
    (∀ (ps : Playspace) (fs : FS) (cwd cwd' p : Path),
      ps.directory.absolute = true →
      Playspace.playspacePath ps fs cwd p
        = Playspace.playspacePath ps fs cwd' p) ∧
    (∀ (ps : Playspace) (fs : FS) (cwd p : Path),
      p.absolute = true → ps.directory.absolute = true →
      p.ancestors.find? (fun a => fs.pathExists a) = none →
      Playspace.playspacePath ps fs cwd p = .error (.outsidePlayspace p)) ∧
    (∀ (ps : Playspace) (fs : FS) (cwd p a ca croot : Path),
      p.absolute = true → ps.directory.absolute = true →
      p.ancestors.find? (fun x => fs.pathExists x) = some a →
      fs.canonical a = .ok ca → fs.canonical ps.directory = .ok croot →
      Playspace.playspacePath ps fs cwd p
        = if ca.startsWith croot then .ok p
          else .error (.outsidePlayspace p)) ∧
    (∀ (ps : Playspace) (fs : FS) (cwd p : Path) (contents : String)
      (ioErr : Option IoError) (err : WriteError),
      Playspace.playspacePath ps fs cwd p = .error err →
      (Playspace.writeFile ps fs cwd p contents ioErr).2 = [] ∧
      (Playspace.createFile ps fs cwd p ioErr).2 = [] ∧
      (Playspace.createDirAll ps fs cwd p ioErr).2 = []) := by
  refine ⟨?_, ?_, ?_, ?_, ?_⟩
  · intro ps fs cwd p h
    have hrel : p.isRelative = true := by simp [Path.isRelative, h]
    unfold Playspace.playspacePath
    rw [if_pos hrel]
  · intro ps fs cwd cwd' p hroot
    by_cases hab : p.absolute = true
    · rw [playspacePath_abs_eq ps fs cwd hab hroot,
        playspacePath_abs_eq ps fs cwd' hab hroot]
    · have hrel : p.isRelative = true := by
        simp [Path.isRelative, Bool.not_eq_true] at hab ⊢
        exact hab
      unfold Playspace.playspacePath
      rw [if_pos hrel, if_pos hrel]
  · intro ps fs cwd p hp hroot hfind
    rw [playspacePath_abs_eq ps fs cwd hp hroot, hfind]
  · intro ps fs cwd p a ca croot hp hroot hfind hca hcroot
    rw [playspacePath_abs_eq ps fs cwd hp hroot, hfind]
    simp [hca, hcroot]
  · intro ps fs cwd p contents ioErr err h
    refine ⟨?_, ?_, ?_⟩
    · unfold Playspace.writeFile
      rw [h]
    · unfold Playspace.createFile
      rw [h]
    · unfold Playspace.createDirAll
      rw [h]

/-- Witness for C6: a path under the system root but outside the scratch
directory is rejected with the original path attached; a relative path
resolves against the scratch root. -/
theorem c6_path_containment_witness :
    Playspace.playspacePath psW fsW homeP outPathW
      = .error (.outsidePlayspace outPathW) ∧
    Playspace.playspacePath psW fsW homeP relPathW
      = .ok (Path.join psW.directory relPathW) := by
  constructor
  · rw [c6_path_containment.2.2.2.1 psW fsW homeP outPathW
      ⟨true, []⟩ ⟨true, []⟩ tmpP rfl rfl rfl rfl rfl]
    rfl
  · exact c6_path_containment.1 psW fsW homeP relPathW rfl

/-- C7: Each scoped entry point creates the session via its acquisition
mode, runs the caller's work, tears the session down, and: when teardown
succeeds the caller receives exactly the value the work returned; when
teardown fails the failure is surfaced to the scoped caller as an
`ExitError`. -/
theorem c7_scoped_wrappers :
    (∀ {R : Type} (st : ProcState) (so : SetupOracle) (o : TeardownOracle)
      (f : Playspace → ProcState → R × ProcState) (ps : Playspace)
      (st1 : ProcState), Playspace.new st so = some (.ok ps, st1) →
      ((Playspace.exitSpace ps (f ps st1).2 o).1 = .ok () →
        Playspace.scoped st so o f
          = some (.ok (f ps st1).1,
              (Playspace.exitSpace ps (f ps st1).2 o).2.1)) ∧
      (∀ e, (Playspace.exitSpace ps (f ps st1).2 o).1 = .error e →
        Playspace.scoped st so o f
          = some (.error (.exitError e),
              (Playspace.exitSpace ps (f ps st1).2 o).2.1))) ∧
    (∀ {R : Type} (st : ProcState) (so : SetupOracle) (o : TeardownOracle)
      (f : Playspace → ProcState → R × ProcState) (ps : Playspace)
      (st1 : ProcState), Playspace.tryNew st so = (.ok ps, st1) →
      ((Playspace.exitSpace ps (f ps st1).2 o).1 = .ok () →
        Playspace.tryScoped st so o f
          = (.ok (f ps st1).1, (Playspace.exitSpace ps (f ps st1).2 o).2.1)) ∧
      (∀ e, (Playspace.exitSpace ps (f ps st1).2 o).1 = .error e →
        Playspace.tryScoped st so o f
          = (.error (.exitError e),
              (Playspace.exitSpace ps (f ps st1).2 o).2.1))) ∧
    (∀ {R : Type} (st : ProcState) (so : SetupOracle) (o : TeardownOracle)
      (f : Playspace → ProcState → R × ProcState) (ps : Playspace)
      (st1 : ProcState), Playspace.newAsync st so = some (.ok ps, st1) →
      ((Playspace.exitSpace ps (f ps st1).2 o).1 = .ok () →
        Playspace.scopedAsync st so o f
          = some (.ok (f ps st1).1,
              (Playspace.exitSpace ps (f ps st1).2 o).2.1)) ∧
      (∀ e, (Playspace.exitSpace ps (f ps st1).2 o).1 = .error e →
        Playspace.scopedAsync st so o f
          = some (.error (.exitError e),
              (Playspace.exitSpace ps (f ps st1).2 o).2.1))) ∧
    (∀ {R : Type} (st : ProcState) (so : SetupOracle) (o : TeardownOracle)
      (f : Playspace → ProcState → R × ProcState) (ps : Playspace)
      (st1 : ProcState), Playspace.tryNew st so = (.ok ps, st1) →
      ((Playspace.exitSpace ps (f ps st1).2 o).1 = .ok () →
        Playspace.tryScopedAsync st so o f
          = (.ok (f ps st1).1, (Playspace.exitSpace ps (f ps st1).2 o).2.1)) ∧
      (∀ e, (Playspace.exitSpace ps (f ps st1).2 o).1 = .error e →
        Playspace.tryScopedAsync st so o f
          = (.error (.exitError e),
              (Playspace.exitSpace ps (f ps st1).2 o).2.1))) ∧
    (∀ {R : Type} (st : ProcState) (so : SetupOracle) (o : TeardownOracle)
      (vars : List (String × Option String))
      (f : Playspace → ProcState → R × ProcState) (ps : Playspace)
      (st1 : ProcState), Playspace.withEnvs st so vars = some (.ok ps, st1) →
      ((Playspace.exitSpace ps (f ps st1).2 o).1 = .ok () →
        Playspace.scopedWithEnvs st so o vars f
          = some (.ok (f ps st1).1,
              (Playspace.exitSpace ps (f ps st1).2 o).2.1)) ∧
      (∀ e, (Playspace.exitSpace ps (f ps st1).2 o).1 = .error e →
        Playspace.scopedWithEnvs st so o vars f
          = some (.error (.exitError e),
              (Playspace.exitSpace ps (f ps st1).2 o).2.1))) := by
  refine ⟨?_, ?_, ?_, ?_, ?_⟩
  · intro R st so o f ps st1 hnew
    constructor
    · intro hex
      unfold Playspace.scoped
      rw [hnew, Option.map_some', scopedBody_exit_ok ps st1 o f hex]
    · intro e hex
      unfold Playspace.scoped
      rw [hnew, Option.map_some', scopedBody_exit_err ps st1 o f e hex]
  · intro R st so o f ps st1 htry
    constructor
    · intro hex
      unfold Playspace.tryScoped
      rw [htry, scopedBody_exit_ok ps st1 o f hex]
    · intro e hex
      unfold Playspace.tryScoped
      rw [htry, scopedBody_exit_err ps st1 o f e hex]
  · intro R st so o f ps st1 hnew
    constructor
    · intro hex
      unfold Playspace.scopedAsync
      rw [hnew, Option.map_some', scopedBody_exit_ok ps st1 o f hex]
    · intro e hex
      unfold Playspace.scopedAsync
      rw [hnew, Option.map_some', scopedBody_exit_err ps st1 o f e hex]
  · intro R st so o f ps st1 htry
    constructor
    · intro hex
      unfold Playspace.tryScopedAsync
      rw [htry, scopedBody_exit_ok ps st1 o f hex]
    · intro e hex
      unfold Playspace.tryScopedAsync
      rw [htry, scopedBody_exit_err ps st1 o f e hex]
  · intro R st so o vars f ps st1 hwe
    constructor
    · intro hex
      unfold Playspace.scopedWithEnvs
      rw [hwe, Option.map_some', scopedBody_exit_ok ps st1 o f hex]
    · intro e hex
      unfold Playspace.scopedWithEnvs
      rw [hwe, Option.map_some', scopedBody_exit_err ps st1 o f e hex]

/-- Witness for C7: a concrete scoped run whose work returns 42 and whose
teardown succeeds hands exactly 42 back to the caller. -/
theorem c7_scoped_wrappers_witness :
    Playspace.scoped stW soW toW f0
      = some (.ok 42, (Playspace.exitSpace psW (f0 psW st1W).2 toW).2.1) :=
  (c7_scoped_wrappers.1 stW soW toW f0 psW st1W rfl).1 rfl

/-- C8: Teardown runs exactly once per session: explicit `exit` runs the
full sequence, then `mem::forget` makes the subsequent scope end a no-op
(no second teardown); an abandoned session's `Drop` runs the very same
sequence automatically, discarding the result. -/
theorem c8_teardown_exactly_once :
    ∀ (ps : Playspace) (st : ProcState) (o : TeardownOracle),
      (Playspace.exitSpace ps st o).2.2 = fullTeardownTrace ∧
      (Playspace.exitSpace ps st o).2.2.count TeardownEvent.lockReleased = 1 ∧
      scopeEnd true ps (Playspace.exitSpace ps st o).2.1 o
        = ((Playspace.exitSpace ps st o).2.1, []) ∧
      Playspace.abandonSpace ps st o
        = ((Playspace.exitInternal ps st o).2.1,
            (Playspace.exitInternal ps st o).2.2) ∧
      (Playspace.abandonSpace ps st o).2.count TeardownEvent.lockReleased
        = 1 := by
  intro ps st o
  exact ⟨rfl, rfl, rfl, rfl, rfl⟩

/-- C10: `with_envs_async` is extensionally equal to the synchronous
`with_envs` — its body acquires through the blocking `Self::new()` path —
and any successful run logs a blocking acquisition, not a cooperative
one. -/
theorem c10_with_envs_async_blocking :
    (∀ (st : ProcState) (o : SetupOracle)
      (vars : List (String × Option String)),
      Playspace.withEnvsAsync st o vars = Playspace.withEnvs st o vars) ∧
    (∀ (st : ProcState) (o : SetupOracle)
      (vars : List (String × Option String))
      (r : Except SpaceError Playspace) (s' : ProcState),
      Playspace.withEnvsAsync st o vars = some (r, s') →
      s'.acqLog = AcqMode.blocking :: st.acqLog) := by
  constructor
  · intro st o vars
    rfl
  · intro st o vars r s' h
    unfold Playspace.withEnvsAsync at h
    cases hn : Playspace.new st o with
    | none => rw [hn] at h; simp at h
    | some rr =>
      rw [hn, Option.map_some'] at h
      obtain ⟨st', hacq, hrr⟩ := new_inversion hn
      have hst' := (acquire_eq_some hacq).2
      have hlog : rr.2.acqLog = AcqMode.blocking :: st.acqLog := by
        rw [hrr]
        show (Playspace.fromLock st' o).2.acqLog = _
        rw [fromLock_acqLog, hst']
      cases hfst : rr.1 with
      | error e =>
        rw [hfst] at h
        simp at h
        rw [← h.2]
        exact hlog
      | ok ps2 =>
        rw [hfst] at h
        simp at h
        rw [← h.2]
        simpa using hlog

/-- Witness for C10: a concrete successful `with_envs_async` run logged a
blocking acquisition. -/
theorem c10_with_envs_async_blocking_witness :
    st1W.acqLog = AcqMode.blocking :: stW.acqLog :=
  c10_with_envs_async_blocking.2 stW soW [] (.ok psW) st1W rfl

end Pspace
